import Mathlib

/-!
Shallow embedding of the scoring-and-allocation core of the `lt_investments`
repository, together with theorems settling the frozen claims about it.

Numeric model: Python floats are modelled by exact rationals (`ℚ`).  The two
transcendental operations the code uses (`np.exp` inside the multi-factor
volatility component, and the square root inside a standard deviation) are
modelled as function parameters `expQ sqrtQ : ℚ → ℚ`; every theorem below
holds for an arbitrary choice of these parameters, hence in particular for
the floating-point approximations the program computes with.

Python-level runtime failures that the translated code can actually raise
(pandas `AttributeError` on `"".notna()`, positional `IndexError` on
`df.iloc[-61]`, label-lookup `KeyError` on `reversed(series)`) are modelled
with `Except PyErr`.
-/

/-- Runtime failures reachable inside the embedded code. -/
inductive PyErr where
  | indexError
  | attributeError
  | keyError
deriving DecidableEq

/-- One daily OHLCV bar of a price series (`date` is never read by any of the
scoring arithmetic, so it is omitted from the embedding). -/
structure PriceBar where
  op : ℚ
  high : ℚ
  low : ℚ
  close : ℚ
  volume : ℚ
  adjusted_close : ℚ
deriving DecidableEq

instance : Inhabited PriceBar := ⟨⟨0, 0, 0, 0, 0, 0⟩⟩

/-- A flat bar, convenient for concrete inputs. -/
def flatBar (c : ℚ) : PriceBar := ⟨c, c, c, c, 1, c⟩

/-- `max(0.0, min(1.0, x))`, the clamp the scorers apply. -/
def clamp01 (x : ℚ) : ℚ := max 0 (min 1 x)

/-- Maximum of a list (`Series.max`); junk value `0` on the empty list, which
the code never hits on the guarded paths. -/
def maxOf : List ℚ → ℚ
  | [] => 0
  | x :: xs => xs.foldl max x

/-- Minimum of a list (`Series.min`); junk value `0` on the empty list. -/
def minOf : List ℚ → ℚ
  | [] => 0
  | x :: xs => xs.foldl min x

/-- Arithmetic mean of a list (`Series.mean`); `ℚ` division by zero makes the
empty case a junk `0`, never reached on guarded paths. -/
def meanQ (l : List ℚ) : ℚ := l.sum / (l.length : ℚ)

/-- `Series.tail(n)`: the last `n` elements. -/
def lastN (n : ℕ) (l : List ℚ) : List ℚ := l.drop (l.length - n)

/-- `df.tail(n)` on bars. -/
def lastNB (n : ℕ) (l : List PriceBar) : List PriceBar := l.drop (l.length - n)

/-- `df.iloc[-1]` on a list known (on all call sites) to be nonempty. -/
def lastD (l : List PriceBar) : PriceBar := l.getLastD default

/-- `df.iloc[0]`. -/
def headD (l : List PriceBar) : PriceBar := l.headD default

/-- `df.iloc[i]` for a nonnegative position. -/
def nthD (l : List PriceBar) (i : ℕ) : PriceBar := l.getD i default

/-- `Series.pct_change()` without its leading `NaN` entry: consecutive ratios
minus one. -/
def pctChanges : List ℚ → List ℚ
  | [] => []
  | [_] => []
  | a :: b :: rest => (b / a - 1) :: pctChanges (b :: rest)

/-- `Series.pct_change()` with the leading `NaN` replaced by `0`, i.e. the
result of `.fillna(0)` (the fill commutes with `.tail`, so this also models
`pct_change().tail(n).fillna(0)` after `lastN`). -/
def retsFilled (closes : List ℚ) : List ℚ :=
  match closes with
  | [] => []
  | _ :: _ => 0 :: pctChanges closes

/-- Sample variance with `ddof = 1` (the default of `Series.std`, squared);
junk value `0` for fewer than two observations (where pandas yields `NaN`),
unreachable under the guards of every call site. -/
def sampleVar (l : List ℚ) : ℚ :=
  if l.length ≤ 1 then 0
  else (l.map (fun x => (x - meanQ l) ^ 2)).sum / ((l.length : ℚ) - 1)

/-- One scored row as assembled by `score_ticker` (`scorer.py` /
`reversion_scorer.py`): the fields `calculate_allocations` reads. -/
structure ScoreRow where
  ticker : String
  market : String
  score : ℚ
  current_price : Option ℚ
  rowErr : Option String
deriving DecidableEq

/-- A pandas DataFrame of score rows.  `hasErrCol` records whether the
`"error"` column exists at all: `pd.DataFrame(list_of_dicts)` creates it iff
at least one dict carries the key, and row filtering preserves it. -/
structure ScoresFrame where
  rows : List ScoreRow
  hasErrCol : Bool
deriving DecidableEq

/-- Builds the frame `pd.DataFrame(results)` of `score_multiple_tickers`:
the `"error"` column exists iff some result dict has the key. -/
def mkFrame (rows : List ScoreRow) : ScoresFrame :=
  ⟨rows, rows.any fun r => r.rowErr.isSome⟩

/-- The two configuration values `PortfolioAllocator.__init__` keeps
(`min_allocation_pct` already divided by 100, as the constructor does). -/
structure AllocConfig where
  monthly_budget : ℚ
  min_allocation_pct : ℚ
deriving DecidableEq

/-- The filter of `calculate_allocations` (allocator.py:32-36), in the case
where the `"error"` column exists: score strictly positive, price defined,
error cell `NaN`. -/
def validRows (rows : List ScoreRow) : List ScoreRow :=
  rows.filter fun r => decide (0 < r.score) && r.current_price.isSome && r.rowErr.isNone

/-- `valid_scores["score"].sum()` (allocator.py:43). -/
def totalScore (v : List ScoreRow) : ℚ := (v.map (·.score)).sum

/-- The proportional (or, if the total is zero, equal-weight) percentages
(allocator.py:45-51). -/
def rawPcts (v : List ScoreRow) : List ℚ :=
  if totalScore v = 0 then v.map fun _ => 1 / (v.length : ℚ)
  else v.map fun r => r.score / totalScore v

/-- The effective minimum-allocation floor (allocator.py:54-62): adaptively
reduced to `0.8 / n` when `min_pct * n` exceeds 100%. -/
def effectiveFloor (minPct : ℚ) (n : ℕ) : ℚ :=
  if 1 < minPct * (n : ℚ) then (4 / 5) / (n : ℚ) else minPct

/-- Raising every percentage below the effective floor to exactly the floor
(allocator.py:65). -/
def flooredPcts (cfg : AllocConfig) (v : List ScoreRow) : List ℚ :=
  (rawPcts v).map fun p =>
    if p < effectiveFloor cfg.min_allocation_pct v.length then
      effectiveFloor cfg.min_allocation_pct v.length
    else p

/-- Renormalization (allocator.py:68-70): scale down proportionally when the
floored percentages sum to more than 100%. -/
def renormPcts (cfg : AllocConfig) (v : List ScoreRow) : List ℚ :=
  if 1 < (flooredPcts cfg v).sum then (flooredPcts cfg v).map (· / (flooredPcts cfg v).sum)
  else flooredPcts cfg v

/-- Round-half-to-even to an integer, the tie rule of `round`/`Series.round`
on the idealized (exact-decimal) reading of the floats involved. -/
def roundHalfEven (x : ℚ) : ℤ :=
  if x - ⌊x⌋ < 1 / 2 then ⌊x⌋
  else if 1 / 2 < x - ⌊x⌋ then ⌊x⌋ + 1
  else if 2 ∣ ⌊x⌋ then ⌊x⌋ else ⌊x⌋ + 1

/-- `round(x, 2)`. -/
def round2 (x : ℚ) : ℚ := (roundHalfEven (x * 100) : ℚ) / 100

/-- One output row of `calculate_allocations` (allocator.py:72-78). -/
structure Allocation where
  ticker : String
  market : String
  score : ℚ
  current_price : ℚ
  allocation_pct : ℚ
  allocation_amount : ℚ
  shares : ℚ
  actual_amount : ℚ
deriving DecidableEq

/-- Dollar conversion of one row (allocator.py:73-78): nominal amount, shares
rounded to two decimals, actual amount recomputed from rounded shares. -/
def buildAllocation (cfg : AllocConfig) (r : ScoreRow) (p : ℚ) : Allocation :=
  { ticker := r.ticker
    market := r.market
    score := r.score
    current_price := r.current_price.getD 0
    allocation_pct := p
    allocation_amount := p * cfg.monthly_budget
    shares := round2 (p * cfg.monthly_budget / r.current_price.getD 0)
    actual_amount := round2 (p * cfg.monthly_budget / r.current_price.getD 0) * r.current_price.getD 0 }

/-- The descending-by-amount order of `sort_values("allocation_amount",
ascending=False)` (allocator.py:82). -/
def amountGe (a b : Allocation) : Prop := b.allocation_amount ≤ a.allocation_amount

instance : DecidableRel amountGe := fun a b =>
  inferInstanceAs (Decidable (b.allocation_amount ≤ a.allocation_amount))

instance : IsTotal Allocation amountGe :=
  ⟨fun a b => le_total b.allocation_amount a.allocation_amount⟩

instance : IsTrans Allocation amountGe :=
  ⟨fun _ _ _ h1 h2 => le_trans h2 h1⟩

/-- `sort_values("allocation_amount", ascending=False)` (allocator.py:82);
any comparison sort realizes it, tie order being unspecified by pandas. -/
def sortAllocs (l : List Allocation) : List Allocation :=
  l.insertionSort amountGe

/-- The arithmetic core of `calculate_allocations` (allocator.py:42-82) on
the already-filtered rows. -/
def allocCore (cfg : AllocConfig) (v : List ScoreRow) : List Allocation :=
  sortAllocs (((v.zip (renormPcts cfg v)).map fun rp => buildAllocation cfg rp.1 rp.2))

/-- `PortfolioAllocator.calculate_allocations` (allocator.py:17-82).  When the
input frame lacks an `"error"` column, `scores_df.get("error", "")` is the
plain string `""` and `"".notna()` raises `AttributeError`. -/
def calculate_allocations (cfg : AllocConfig) (sf : ScoresFrame) : Except PyErr (List Allocation) :=
  if sf.rows.isEmpty then .ok []
  else if !sf.hasErrCol then .error .attributeError
  else if (validRows sf.rows).isEmpty then .ok []
  else .ok (allocCore cfg (validRows sf.rows))

/-- One backtest holding: cumulative shares and running average cost. -/
structure Holding where
  shares : ℚ
  avg_price : ℚ
deriving DecidableEq

/-- The holdings update of `run_monthly_backtest` (engine.py:143-154): cost
is computed from the OLD share count, then shares and average are replaced. -/
def updateHoldingBacktest (h : Option Holding) (sharesToBuy price amount : ℚ) : Holding :=
  match h with
  | some hold =>
    { shares := hold.shares + sharesToBuy
      avg_price :=
        if 0 < hold.shares + sharesToBuy then
          (hold.shares * hold.avg_price + amount) / (hold.shares + sharesToBuy)
        else price }
  | none => { shares := sharesToBuy, avg_price := price }

/-- The holdings replay of `calculate_performance_metrics` (engine.py:207-216):
`shares` is incremented FIRST, and the "total cost" is then computed from the
already-updated share count. -/
def updateHoldingMetrics (h : Option Holding) (sharesToBuy price amount : ℚ) : Holding :=
  match h with
  | some hold =>
    { shares := hold.shares + sharesToBuy
      avg_price := ((hold.shares + sharesToBuy) * hold.avg_price + amount) / (hold.shares + sharesToBuy) }
  | none => { shares := sharesToBuy, avg_price := price }

/-- The configurable weights of the multi-factor scorer
(`scoring_weights`, default 0.4/0.3/0.2/0.1). -/
structure ScoringWeights where
  price_position : ℚ
  momentum_decay : ℚ
  volatility_adjusted : ℚ
  volume_confirmation : ℚ
deriving DecidableEq

/-- The configuration `InvestmentScorer.__init__` keeps (lookback_days only
slices the window upstream and is not part of the per-window arithmetic). -/
structure ScorerConfig where
  weights : ScoringWeights
  momentum_decay_factor : ℚ
  volatility_window : ℕ
deriving DecidableEq

/-- Default scorer configuration (scorer.py:13-22). -/
def defaultScorerConfig : ScorerConfig :=
  ⟨⟨2/5, 3/10, 1/5, 1/10⟩, 19/20, 30⟩

/-- `calculate_price_position_score` (scorer.py:24-41). -/
def calculate_price_position_score (df : List PriceBar) : ℚ :=
  if df.length < 2 then 0
  else
    if maxOf (df.map (·.high)) = minOf (df.map (·.low)) then 1 / 2
    else
      clamp01 ((maxOf (df.map (·.high)) - (lastD df).close) /
        (maxOf (df.map (·.high)) - minOf (df.map (·.low))))

/-- The weighted walk of scorer.py:59-67 over the (already reversed, most
recent first) returns: negative returns add `w*|r|`, nonnegative ones
subtract `w*r*0.5`, the weight decaying by the configured factor each step. -/
def decayWalk (d : ℚ) : List ℚ → ℚ → ℚ
  | [], _ => 0
  | r :: rs, w => (if r < 0 then w * |r| else -(w * r * (1 / 2))) + decayWalk d rs (w * d)

/-- The last-20 returns of a window, with the leading `NaN` of `pct_change`
already filled with `0` (scorer.py:53-56). -/
def trailingRets (df : List PriceBar) : List ℚ :=
  lastN 20 (retsFilled (df.map (·.close)))

/-- Normalization and clamp of the decay walk (scorer.py:70). -/
def momentumCore (d : ℚ) (rets : List ℚ) : ℚ :=
  clamp01 (decayWalk d rets.reverse 1 / 2)

/-- `calculate_momentum_decay_score` (scorer.py:43-70).  The loop
`for ret in reversed(recent_returns)` relies on Python's sequence-protocol
fallback: `pd.Series` has no reversed-iteration method, so `reversed()`
calls `__getitem__(len-1), ..., __getitem__(0)` with plain integers, which
on an integer index is LABEL lookup.  A window is modelled as a frame whose
row labels are `0..len-1` (in the pipeline every window of at most 20 bars
is such a prefix, since `tail` only shifts labels when it actually drops
rows).  For at most 20 bars, `tail(20)` keeps the whole series with labels
`0..len-1` and the walk is exactly the positional reversal; for more than
20 bars the requested labels `19..0` are not all present in the tail's
labels `len-20..len-1` (and a label-shifted slice of a longer frame is
missing them all the more), so the lookup raises `KeyError` and no score is
produced. -/
def calculate_momentum_decay_score (cfg : ScorerConfig) (df : List PriceBar) :
    Except PyErr ℚ :=
  if df.length < 5 then .ok 0
  else if 20 < df.length then .error .keyError
  else .ok (momentumCore cfg.momentum_decay_factor (trailingRets df))

/-- `calculate_volatility_adjusted_score` (scorer.py:72-96).  `sqrtQ` stands
for the square root inside `Series.std` (which skips the leading `NaN`, so
the variance is taken over the `n-1` genuine returns, `ddof=1`); `expQ` for
`np.exp`.  `df.iloc[-5]` raises `IndexError` when the guard
`len(df) >= volatility_window` admits a window shorter than 5 bars. -/
def calculate_volatility_adjusted_score (cfg : ScorerConfig) (sqrtQ expQ : ℚ → ℚ)
    (df : List PriceBar) : Except PyErr ℚ :=
  if df.length < cfg.volatility_window then .ok 0
  else if sqrtQ (sampleVar (pctChanges (df.map (·.close)))) = 0 then .ok (1 / 2)
  else if df.length < 5 then .error .indexError
  else
    .ok (clamp01 (2 / (1 + expQ (-(|min 0 (((lastD df).close - (nthD df (df.length - 5)).close) /
      (nthD df (df.length - 5)).close)| / sqrtQ (sampleVar (pctChanges (df.map (·.close))))))) - 1))

/-- `volume.rolling(window=20, min_periods=5).mean()` over a volume column
with no missing values: defined from position 4 on, averaging the last
`min(i+1, 20)` entries (scorer.py:108). -/
def volumeMA (vols : List ℚ) : List (Option ℚ) :=
  (List.range vols.length).map fun i =>
    if 5 ≤ i + 1 then some (meanQ ((vols.take (i + 1)).drop (i + 1 - 20))) else none

/-- The per-row returns column without fill: `NaN` (`none`) in the first row
(scorer.py:107). -/
def retsOpt (closes : List ℚ) : List (Option ℚ) :=
  match closes with
  | [] => []
  | _ :: _ => none :: (pctChanges closes).map some

/-- `calculate_volume_confirmation_score` (scorer.py:98-128): over the last
10 rows, rows with a `NaN` return or `NaN` volume moving average are skipped;
down days add `ratio*|r|`, up days subtract `0.3*ratio*r`. -/
def calculate_volume_confirmation_score (df : List PriceBar) : ℚ :=
  if df.length < 10 then 0
  else
    clamp01 ((((retsOpt (df.map (·.close))).zip ((df.map (·.volume)).zip
        (volumeMA (df.map (·.volume))))).drop
          (((retsOpt (df.map (·.close))).zip ((df.map (·.volume)).zip
            (volumeMA (df.map (·.volume))))).length - 10) |>.foldl
      (fun acc row =>
        match row.1, row.2.2 with
        | some r, some vma =>
          if r < 0 then acc + (if 0 < vma then row.2.1 / vma else 1) * |r|
          else if 0 < r then acc - (if 0 < vma then row.2.1 / vma else 1) * r * (3 / 10)
          else acc
        | _, _ => acc) 0) / 5)

/-- `InvestmentScorer.calculate_final_score` (scorer.py:130-159): the weighted
sum of the four components, not re-clamped; `0.0` on an empty window.  The
components are computed in source order (price position, momentum,
volatility, volume), so a momentum `KeyError` surfaces before a volatility
`IndexError`. -/
def calculate_final_score (cfg : ScorerConfig) (sqrtQ expQ : ℚ → ℚ)
    (df : List PriceBar) : Except PyErr ℚ :=
  if df.isEmpty then .ok 0
  else
    (calculate_momentum_decay_score cfg df).bind fun md =>
      (calculate_volatility_adjusted_score cfg sqrtQ expQ df).bind fun va =>
        .ok (calculate_price_position_score df * cfg.weights.price_position +
          md * cfg.weights.momentum_decay +
          va * cfg.weights.volatility_adjusted +
          calculate_volume_confirmation_score df * cfg.weights.volume_confirmation)

/-- The least-squares line `np.polyfit(x, ys, 1)` with `x = 0..m-1`:
`(slope, intercept)` in closed form. -/
def linfit (ys : List ℚ) : ℚ × ℚ :=
  ((((ys.length : ℚ) * (((List.range ys.length).map fun i => (i : ℚ)).zip ys).foldl
        (fun acc p => acc + p.1 * p.2) 0 -
      (((List.range ys.length).map fun i => (i : ℚ)).sum) * ys.sum) /
    ((ys.length : ℚ) * (((List.range ys.length).map fun i => ((i : ℚ)) ^ 2).sum) -
      (((List.range ys.length).map fun i => (i : ℚ)).sum) ^ 2)),
   ((ys.sum - (((ys.length : ℚ) * (((List.range ys.length).map fun i => (i : ℚ)).zip ys).foldl
        (fun acc p => acc + p.1 * p.2) 0 -
      (((List.range ys.length).map fun i => (i : ℚ)).sum) * ys.sum) /
    ((ys.length : ℚ) * (((List.range ys.length).map fun i => ((i : ℚ)) ^ 2).sum) -
      (((List.range ys.length).map fun i => (i : ℚ)).sum) ^ 2)) *
      (((List.range ys.length).map fun i => (i : ℚ)).sum)) / (ys.length : ℚ)))

/-- The trend reference of `calculate_oversold_score`
(reversion_scorer.py:36-42): the fitted line evaluated at the last position
when at least 60 bars exist, otherwise the 50-bar moving average. -/
def trendPrice (df : List PriceBar) : ℚ :=
  if 60 ≤ df.length then
    (linfit ((lastNB 60 df).map (·.adjusted_close))).1 *
      (((lastNB 60 df).map (·.adjusted_close)).length - 1 : ℚ) +
      (linfit ((lastNB 60 df).map (·.adjusted_close))).2
  else meanQ ((lastNB (min 50 df.length) df).map (·.adjusted_close))

/-- The additive discount accumulation plus multi-timeframe bonus of
`calculate_oversold_score` (reversion_scorer.py:44-74), given the current
price and the three reference levels. -/
def oversoldFrom (cur ma20 ma50 trend : ℚ) : ℚ :=
  clamp01
    (if 2 ≤ (if cur < ma20 then 1 else 0) + (if cur < ma50 then 1 else 0) +
        ((if cur < trend then 1 else 0) : ℕ) then
      ((if cur < ma20 then min ((ma20 - cur) / ma20 * 3) (2 / 5) else 0) +
        (if cur < ma50 then min ((ma50 - cur) / ma50 * 2) (3 / 10) else 0) +
        (if cur < trend then min ((trend - cur) / trend * 2) (3 / 10) else 0)) * (6 / 5)
    else
      (if cur < ma20 then min ((ma20 - cur) / ma20 * 3) (2 / 5) else 0) +
        (if cur < ma50 then min ((ma50 - cur) / ma50 * 2) (3 / 10) else 0) +
        (if cur < trend then min ((trend - cur) / trend * 2) (3 / 10) else 0))

/-- `calculate_oversold_score` (reversion_scorer.py:22-74). -/
def calculate_oversold_score (df : List PriceBar) : ℚ :=
  if df.length < 30 then 0
  else
    oversoldFrom (lastD df).adjusted_close
      (meanQ ((lastNB 20 df).map (·.adjusted_close)))
      (meanQ ((lastNB (min 50 df.length) df).map (·.adjusted_close)))
      (trendPrice df)

/-- The multiplicative penalty cascade of `calculate_quality_filter`
(reversion_scorer.py:96-124), given the long-term return `ltr`. -/
def qualityCore (df : List PriceBar) (ltr : ℚ) : ℚ :=
  clamp01
    ((if meanQ (lastN 10 (df.map (·.volume))) < meanQ (df.map (·.volume)) * (1 / 2) then (4 / 5)
        else 1) *
      ((if ltr < -(3 / 10) then (2 / 5) else if ltr < -(1 / 5) then (7 / 10) else 1) *
        ((if minOf (lastN 5 (retsFilled (df.map (·.adjusted_close)))) < -(3 / 20) then (3 / 10)
            else if minOf (lastN 5 (retsFilled (df.map (·.adjusted_close)))) < -(1 / 10) then (3 / 5)
            else 1) *
          (if (1 / 4 : ℚ) <
              (maxOf (lastN 10 (df.map (·.adjusted_close))) - (lastD df).adjusted_close) /
                maxOf (lastN 10 (df.map (·.adjusted_close))) then (1 / 5)
            else if (3 / 20 : ℚ) <
              (maxOf (lastN 10 (df.map (·.adjusted_close))) - (lastD df).adjusted_close) /
                maxOf (lastN 10 (df.map (·.adjusted_close))) then (1 / 2)
            else if (1 / 10 : ℚ) <
              (maxOf (lastN 10 (df.map (·.adjusted_close))) - (lastD df).adjusted_close) /
                maxOf (lastN 10 (df.map (·.adjusted_close))) then (7 / 10)
            else 1))))

/-- `calculate_quality_filter` (reversion_scorer.py:76-124).  When
`len(df) >= 60`, the code reads `df.iloc[-61]`, a positional `IndexError`
for a frame of exactly 60 rows. -/
def calculate_quality_filter (df : List PriceBar) : Except PyErr ℚ :=
  if df.length < 30 then .ok 0
  else if 60 ≤ df.length then
    if 61 ≤ df.length then
      .ok (qualityCore df
        ((lastD df).adjusted_close / (nthD df (df.length - 61)).adjusted_close - 1))
    else .error .indexError
  else .ok (qualityCore df ((lastD df).adjusted_close / (headD df).adjusted_close - 1))

/-- The value `calculate_quality_filter` yields whenever it does not raise. -/
def qualityOk (df : List PriceBar) : ℚ := ((calculate_quality_filter df).toOption).getD 0

/-- `calculate_volatility_bonus` (reversion_scorer.py:126-141); the returns
here ARE `fillna(0)`-filled before the standard deviation, and the result
`min(vol*15, 1)` is not clamped below. -/
def calculate_volatility_bonus (sqrtQ : ℚ → ℚ) (df : List PriceBar) : ℚ :=
  if df.length < 20 then 0
  else
    min ((if 30 ≤ df.length then sqrtQ (sampleVar (lastN 30 (retsFilled (df.map (·.adjusted_close)))))
      else sqrtQ (sampleVar (retsFilled (df.map (·.adjusted_close))))) * 15) 1

/-- `MeanReversionScorer.calculate_final_score` (reversion_scorer.py:143-172):
the 0.7/0.2/0.1 weighted blend, multiplied once more by the quality filter. -/
def calculate_final_score_rev (sqrtQ : ℚ → ℚ) (df : List PriceBar) : Except PyErr ℚ :=
  if df.isEmpty then .ok 0
  else
    (calculate_quality_filter df).bind fun q =>
      .ok ((calculate_oversold_score df * (7 / 10) + q * (2 / 10) +
        calculate_volatility_bonus sqrtQ df * (1 / 10)) * q)

/-- The configuration `InvestmentAlertGenerator.__init__` keeps. -/
structure AlertConfig where
  alert_threshold : ℚ
  max_alerts : ℕ
  alloc : AllocConfig
deriving DecidableEq

/-- The threshold filter of `generate_alerts` (alert_generator.py:51-54):
score at least the alert threshold and a defined current price. -/
def alertValid (acfg : AlertConfig) (scores : List ScoreRow) : List ScoreRow :=
  scores.filter fun r => decide (acfg.alert_threshold ≤ r.score) && r.current_price.isSome

/-- The allocation list `generate_alerts` iterates over: the allocator's
output on the threshold-filtered rows (empty when the allocator's own filter
keeps nothing). -/
def alertAllocations (acfg : AlertConfig) (scores : List ScoreRow) : List Allocation :=
  allocCore acfg.alloc (validRows (alertValid acfg scores))

/-- `InvestmentAlertGenerator.generate_alerts` (alert_generator.py:32-74) on
already-scored rows (the upstream `score_multiple_tickers` only sorts its
results by score, and message formatting is presentation, so an alert is
represented by its allocation record).  Rows kept must have
`actual_amount > 0`; the list is then truncated to `max_alerts`. -/
def generate_alerts (acfg : AlertConfig) (scores : List ScoreRow) : Except PyErr (List Allocation) :=
  if (alertValid acfg scores).isEmpty then .ok []
  else
    match calculate_allocations acfg.alloc ⟨alertValid acfg scores, (mkFrame scores).hasErrCol⟩ with
    | .error e => .error e
    | .ok allocs => .ok ((allocs.filter fun a => decide (0 < a.actual_amount)).take acfg.max_alerts)

theorem clamp01_nonneg (x : ℚ) : 0 ≤ clamp01 x := le_max_left 0 _

theorem clamp01_le_one (x : ℚ) : clamp01 x ≤ 1 :=
  max_le (by norm_num) (min_le_left 1 x)

theorem clamp01_strict_mono {x y : ℚ} (hxy : x < y) (hy : 0 < y) (hx1 : x < 1) :
    clamp01 x < clamp01 y := by
  unfold clamp01
  rw [min_eq_right hx1.le]
  rcases le_or_lt x 0 with hx | hx
  · rw [max_eq_left hx]
    exact lt_max_of_lt_right (lt_min one_pos hy)
  · rw [max_eq_right hx.le]
    exact lt_max_of_lt_right (lt_min hx1 hxy)

/-- A score row with a positive score, defined price and no error flag. -/
def rowGood : ScoreRow := ⟨"A", "US", 1 / 2, some 10, none⟩

/-- Allocator configuration at the defaults ($2000 budget, 5% minimum). -/
def cfgStd : AllocConfig := ⟨2000, 1 / 20⟩

/-- C2: the claim says `calculate_allocations` keeps exactly the
positive-score, priced, unflagged rows and never propagates a hard failure.
The code violates this: on a batch in which NO row carries an error value the
DataFrame has no `"error"` column, `scores_df.get("error", "")` evaluates to
the plain string `""`, and `"".notna()` raises `AttributeError` — a hard
failure on a row the filter should have kept. -/
theorem calculate_allocations_hard_fails_without_error_column :
    0 < rowGood.score ∧ rowGood.current_price.isSome = true ∧ rowGood.rowErr = none ∧
      calculate_allocations cfgStd (mkFrame [rowGood]) = .error .attributeError := by
  refine ⟨by norm_num [rowGood], by norm_num [rowGood], by norm_num [rowGood], ?_⟩
  norm_num [calculate_allocations, mkFrame, rowGood, List.any]

/-- C6: the claim says every place the engine accumulates holdings satisfies
the weighted-average-cost recurrence.  After buying 1 share at $10 and then
1 share at $20 (amount $20), `run_monthly_backtest`'s update yields the
correct average 15, but `calculate_performance_metrics`'s replay increments
the share count before computing the cost and yields 20 ≠ 15. -/
theorem holding_update_sites_disagree :
    updateHoldingBacktest (some ⟨1, 10⟩) 1 20 20 = ⟨2, 15⟩ ∧
      updateHoldingMetrics (some ⟨1, 10⟩) 1 20 20 = ⟨2, 20⟩ ∧
      ((1 : ℚ) * 10 + 1 * 20) / (1 + 1) = 15 ∧ (20 : ℚ) ≠ 15 := by
  refine ⟨?_, ?_, by norm_num, by norm_num⟩ <;>
    simp only [updateHoldingBacktest, updateHoldingMetrics, Holding.mk.injEq] <;> norm_num

theorem sum_map_div (l : List ℚ) (c : ℚ) : (l.map (· / c)).sum = l.sum / c := by
  induction l with
  | nil => simp
  | cons a t ih => simp [ih, add_div]

theorem length_rawPcts (v : List ScoreRow) : (rawPcts v).length = v.length := by
  unfold rawPcts; split <;> simp

theorem length_flooredPcts (cfg : AllocConfig) (v : List ScoreRow) :
    (flooredPcts cfg v).length = v.length := by
  simp [flooredPcts, length_rawPcts]

theorem length_renormPcts (cfg : AllocConfig) (v : List ScoreRow) :
    (renormPcts cfg v).length = v.length := by
  unfold renormPcts; split <;> simp [length_flooredPcts]

theorem floor_le_of_mem_flooredPcts {cfg : AllocConfig} {v : List ScoreRow} {p : ℚ}
    (h : p ∈ flooredPcts cfg v) : effectiveFloor cfg.min_allocation_pct v.length ≤ p := by
  obtain ⟨q, -, rfl⟩ := List.mem_map.mp h
  split
  · exact le_refl _
  · next hq => exact not_lt.mp hq

theorem sum_renormPcts_le_one (cfg : AllocConfig) (v : List ScoreRow) :
    (renormPcts cfg v).sum ≤ 1 := by
  unfold renormPcts
  split
  · next h => rw [sum_map_div, div_self (ne_of_gt (lt_trans one_pos h))]
  · next h => exact not_lt.mp h

theorem scaled_floor_le_of_mem_renormPcts {cfg : AllocConfig} {v : List ScoreRow} {p : ℚ}
    (h : p ∈ renormPcts cfg v) :
    effectiveFloor cfg.min_allocation_pct v.length / max 1 (flooredPcts cfg v).sum ≤ p := by
  unfold renormPcts at h
  split at h
  · next hS =>
    obtain ⟨q, hq, rfl⟩ := List.mem_map.mp h
    rw [max_eq_right hS.le]
    exact (div_le_div_iff_of_pos_right (lt_trans one_pos hS)).mpr (floor_le_of_mem_flooredPcts hq)
  · next hS =>
    rw [max_eq_left (not_lt.mp hS)]
    simpa using floor_le_of_mem_flooredPcts h

theorem pcts_of_allocCore (cfg : AllocConfig) (v : List ScoreRow) :
    ((allocCore cfg v).map (·.allocation_pct)).Perm (renormPcts cfg v) := by
  have h1 : (allocCore cfg v).Perm ((v.zip (renormPcts cfg v)).map fun rp => buildAllocation cfg rp.1 rp.2) :=
    List.perm_insertionSort _ _
  have h2 := h1.map (·.allocation_pct)
  refine h2.trans ?_
  rw [List.map_map]
  have h3 : ((fun a => a.allocation_pct) ∘ fun rp : ScoreRow × ℚ => buildAllocation cfg rp.1 rp.2) =
      fun rp : ScoreRow × ℚ => rp.2 := by
    funext rp; rfl
  rw [h3]
  rw [show (fun rp : ScoreRow × ℚ => rp.2) = Prod.snd from rfl]
  rw [List.map_snd_zip]
  rw [length_renormPcts]

/-- C1 (amended): for every batch, after the minimum-floor and renormalization
steps the allocation percentages sum to at most 1 (hence at most 1 plus any
epsilon), and every included allocation's `allocation_pct` is at least the
effective floor DIVIDED BY the pre-renormalization total (equivalently: the
floor itself holds before renormalization; renormalization scales the
guarantee down by the same factor as the percentages). -/
theorem allocator_sum_le_one_and_scaled_floor (cfg : AllocConfig) (v : List ScoreRow) :
    ((allocCore cfg v).map (·.allocation_pct)).sum ≤ 1 ∧
      ∀ a ∈ allocCore cfg v,
        effectiveFloor cfg.min_allocation_pct v.length / max 1 (flooredPcts cfg v).sum ≤
          a.allocation_pct := by
  constructor
  · rw [(pcts_of_allocCore cfg v).sum_eq]
    exact sum_renormPcts_le_one cfg v
  · intro a ha
    exact scaled_floor_le_of_mem_renormPcts
      ((pcts_of_allocCore cfg v).mem_iff.mp (List.mem_map_of_mem (·.allocation_pct) ha))

/-- A high-score row. -/
def rowA : ScoreRow := ⟨"A", "US", 99, some 1, none⟩

/-- A low-score row whose proportional share is below the 5% floor. -/
def rowB : ScoreRow := ⟨"B", "US", 1, some 1, none⟩

/-- An error-flagged row (which also makes the `"error"` column exist). -/
def rowE : ScoreRow := ⟨"E", "US", 0, none, some "No price data available"⟩

/-- C1 (counterexample to the claim as stated): on the batch scoring 99 vs 1
with the default 5% minimum, the effective floor is 1/20 and the floor step
does raise the low share to 1/20, but the subsequent renormalization divides
by 26/25 and leaves the included allocation at 5/104 < 1/20 — so after the
minimum-floor AND renormalization steps, not every included allocation is at
least the effective floor. -/
theorem allocator_floor_violated_after_renorm :
    (calculate_allocations cfgStd (mkFrame [rowA, rowB, rowE])).map
        (fun l => l.map (·.allocation_pct)) = .ok [99 / 104, 5 / 104] ∧
      effectiveFloor cfgStd.min_allocation_pct 2 = 1 / 20 ∧ ((5 : ℚ) / 104 < 1 / 20) := by
  refine ⟨?_, by norm_num [effectiveFloor, cfgStd], by norm_num⟩
  norm_num [calculate_allocations, mkFrame, rowA, rowB, rowE, cfgStd, validRows, List.filter,
    allocCore, sortAllocs, renormPcts, flooredPcts, rawPcts, totalScore, effectiveFloor,
    buildAllocation, List.insertionSort, List.orderedInsert, Except.map, amountGe]

theorem getD_map_q (f : ℚ → ℚ) : ∀ (l : List ℚ) (i : ℕ), i < l.length →
    (l.map f).getD i 0 = f (l.getD i 0)
  | _ :: _, 0, _ => rfl
  | _ :: t, i + 1, h => getD_map_q f t i (by simpa using h)
  | [], _, h => absurd h (by simp)

/-- C5: the effective floor is the configured minimum unless
`minimum_pct × count > 100%`, in which case it is exactly `80% / count`; and
in the floor step every percentage below the effective floor is raised to
exactly the floor, while the others are left unchanged — all before
renormalization. -/
theorem allocator_effective_floor_and_raise (cfg : AllocConfig) (v : List ScoreRow) (i : ℕ)
    (hi : i < v.length) :
    (1 < cfg.min_allocation_pct * (v.length : ℚ) →
        effectiveFloor cfg.min_allocation_pct v.length = (4 / 5) / (v.length : ℚ)) ∧
      (cfg.min_allocation_pct * (v.length : ℚ) ≤ 1 →
        effectiveFloor cfg.min_allocation_pct v.length = cfg.min_allocation_pct) ∧
      ((rawPcts v).getD i 0 < effectiveFloor cfg.min_allocation_pct v.length →
        (flooredPcts cfg v).getD i 0 = effectiveFloor cfg.min_allocation_pct v.length) ∧
      (effectiveFloor cfg.min_allocation_pct v.length ≤ (rawPcts v).getD i 0 →
        (flooredPcts cfg v).getD i 0 = (rawPcts v).getD i 0) := by
  refine ⟨fun h => by rw [effectiveFloor, if_pos h],
    fun h => by rw [effectiveFloor, if_neg (not_lt.mpr h)], fun h => ?_, fun h => ?_⟩
  · rw [flooredPcts, getD_map_q _ _ i (by rwa [length_rawPcts]), if_pos h]
  · rw [flooredPcts, getD_map_q _ _ i (by rwa [length_rawPcts]), if_neg (not_lt.mpr h)]

/-- An allocator configuration whose 60% minimum is infeasible for 2 rows. -/
def cfgWide : AllocConfig := ⟨2000, 3 / 5⟩

/-- C5 witness: with a 60% configured minimum and the two candidates scoring
99 and 1, the floor is adaptively reduced to `0.8 / 2 = 2/5`, and the low
proportional share `1/100` is raised to exactly that floor. -/
theorem allocator_effective_floor_and_raise_witness :
    1 < cfgWide.min_allocation_pct * (([rowA, rowB] : List ScoreRow).length : ℚ) ∧
      (rawPcts [rowA, rowB]).getD 1 0 < effectiveFloor cfgWide.min_allocation_pct 2 ∧
      (flooredPcts cfgWide [rowA, rowB]).getD 1 0 = effectiveFloor cfgWide.min_allocation_pct 2 := by
  refine ⟨by norm_num [cfgWide], by norm_num [rawPcts, totalScore, rowA, rowB,
    effectiveFloor, cfgWide], ?_⟩
  exact (allocator_effective_floor_and_raise cfgWide [rowA, rowB] 1 (by norm_num)).2.2.1
    (by norm_num [rawPcts, totalScore, rowA, rowB, effectiveFloor, cfgWide])

theorem score_pos_of_mem_validRows {rows : List ScoreRow} {r : ScoreRow}
    (h : r ∈ validRows rows) : 0 < r.score := by
  have h2 := (List.mem_filter.mp h).2
  simp only [Bool.and_eq_true, decide_eq_true_eq] at h2
  exact h2.1.1

/-- C9: the equal-weight fallback of allocator.py:45-48 is dead code — the
preceding filter keeps only rows of strictly positive score, so a non-empty
filtered set has strictly positive total score and the proportional branch of
`rawPcts` is always the one taken. -/
theorem equal_weight_branch_unreachable (rows : List ScoreRow)
    (h : validRows rows ≠ []) :
    0 < totalScore (validRows rows) ∧
      rawPcts (validRows rows) =
        (validRows rows).map fun r => r.score / totalScore (validRows rows) := by
  have hpos : 0 < totalScore (validRows rows) := by
    refine List.sum_pos _ (fun x hx => ?_) ?_
    · obtain ⟨r, hr, rfl⟩ := List.mem_map.mp hx
      exact score_pos_of_mem_validRows hr
    · simpa using h
  exact ⟨hpos, by rw [rawPcts, if_neg (ne_of_gt hpos)]⟩

/-- C9 witness: a singleton batch with one valid row. -/
theorem equal_weight_branch_unreachable_witness :
    validRows [rowA] ≠ [] ∧ 0 < totalScore (validRows [rowA]) := by
  refine ⟨by norm_num [validRows, List.filter, rowA], ?_⟩
  exact (equal_weight_branch_unreachable [rowA] (by norm_num [validRows, List.filter, rowA])).1

theorem allocCore_nil (cfg : AllocConfig) : allocCore cfg [] = [] := rfl

theorem sortAllocs_pairwise (l : List Allocation) : (sortAllocs l).Pairwise amountGe :=
  List.sorted_insertionSort amountGe l

theorem score_mem_of_mem_allocCore {cfg : AllocConfig} {v : List ScoreRow} {a : Allocation}
    (h : a ∈ allocCore cfg v) : ∃ r ∈ v, a.score = r.score := by
  have h1 : a ∈ (v.zip (renormPcts cfg v)).map fun rp => buildAllocation cfg rp.1 rp.2 :=
    (List.perm_insertionSort _ _).mem_iff.mp h
  obtain ⟨rp, hrp, rfl⟩ := List.mem_map.mp h1
  exact ⟨rp.1, (List.of_mem_zip hrp).1, rfl⟩

theorem ok_calculate_allocations {cfg : AllocConfig} {sf : ScoresFrame} {l : List Allocation}
    (h : calculate_allocations cfg sf = .ok l) : l = allocCore cfg (validRows sf.rows) := by
  unfold calculate_allocations at h
  split_ifs at h with h1 h2 h3
  · injection h with h
    subst h
    rw [List.isEmpty_iff.mp h1]
    rfl
  · injection h with h
    subst h
    rw [List.isEmpty_iff.mp h3, allocCore_nil]
  · injection h with h
    exact h.symm

/-- C8: every alert emitted by `generate_alerts` for a date has score at
least the configured alert threshold and a strictly positive
`actual_amount`; at most `max_alerts` alerts are returned; and the alerts
are exactly the first `max_alerts` positive-amount entries of the
allocation list, which is sorted by allocation amount descending. -/
theorem alerts_filtered_capped_sorted (acfg : AlertConfig) (scores : List ScoreRow)
    (alerts : List Allocation) (h : generate_alerts acfg scores = .ok alerts) :
    (∀ a ∈ alerts, acfg.alert_threshold ≤ a.score ∧ 0 < a.actual_amount) ∧
      alerts.length ≤ acfg.max_alerts ∧
      alerts = ((alertAllocations acfg scores).filter fun a =>
        decide (0 < a.actual_amount)).take acfg.max_alerts ∧
      (alertAllocations acfg scores).Pairwise amountGe := by
  have heq : alerts = ((alertAllocations acfg scores).filter fun a =>
      decide (0 < a.actual_amount)).take acfg.max_alerts := by
    unfold generate_alerts at h
    split_ifs at h with h1
    · injection h with h
      subst h
      have hAA : alertAllocations acfg scores = [] := by
        unfold alertAllocations
        rw [List.isEmpty_iff.mp h1]
        rfl
      rw [hAA]
      simp
    · rcases hCA : calculate_allocations acfg.alloc ⟨alertValid acfg scores,
          (mkFrame scores).hasErrCol⟩ with e | allocs
      · rw [hCA] at h
        exact absurd h (by simp)
      · rw [hCA] at h
        injection h with h
        rw [← h, ok_calculate_allocations hCA]
        rfl
  refine ⟨?_, ?_, heq, sortAllocs_pairwise _⟩
  · intro a ha
    rw [heq] at ha
    have hf := List.mem_of_mem_take ha
    obtain ⟨hmem, hamt⟩ := List.mem_filter.mp hf
    refine ⟨?_, by simpa using hamt⟩
    obtain ⟨r, hr, hsc⟩ := score_mem_of_mem_allocCore hmem
    have hr2 := (List.mem_filter.mp (List.mem_of_mem_filter hr)).2
    simp only [Bool.and_eq_true, decide_eq_true_eq] at hr2
    rw [hsc]
    exact hr2.1
  · rw [heq, List.length_take]
    exact min_le_left _ _

/-- Alert configuration at the defaults (threshold 0.3, cap 8). -/
def acfgStd : AlertConfig := ⟨3 / 10, 8, cfgStd⟩

/-- The single allocation produced on the witness batch below. -/
def allocGood : Allocation := ⟨"A", "US", 1 / 2, 10, 1, 2000, 200, 2000⟩

/-- C8 witness: on a batch with one scorable row (and one error-flagged row,
so that the allocator's error column exists), the driver emits exactly one
alert, whose score clears the threshold and whose amount is positive. -/
theorem alerts_filtered_capped_sorted_witness :
    generate_alerts acfgStd [rowGood, rowE] = .ok [allocGood] ∧
      (∀ a ∈ [allocGood], acfgStd.alert_threshold ≤ a.score ∧ 0 < a.actual_amount) ∧
      [allocGood].length ≤ acfgStd.max_alerts := by
  have hok : generate_alerts acfgStd [rowGood, rowE] = .ok [allocGood] := by
    norm_num [generate_alerts, alertValid, mkFrame, calculate_allocations, validRows,
      allocCore, sortAllocs, renormPcts, flooredPcts, rawPcts, totalScore, effectiveFloor,
      buildAllocation, round2, roundHalfEven, List.insertionSort, List.orderedInsert,
      List.filter, acfgStd, cfgStd, rowGood, rowE, allocGood, List.take]
  exact ⟨hok, (alerts_filtered_capped_sorted acfgStd [rowGood, rowE] [allocGood] hok).1,
    (alerts_filtered_capped_sorted acfgStd [rowGood, rowE] [allocGood] hok).2.1⟩

/-- C10: on any window of fewer than 30 bars the mean-reversion scorer's
final score is exactly 0: oversold and quality are both 0 below 30 bars, and
the quality filter multiplies the weighted blend, zeroing it whatever the
volatility bonus is (the arbitrary `sq` covers any value of the
square root, hence any volatility bonus). -/
theorem reversion_zero_below_thirty_bars (sq : ℚ → ℚ) (df : List PriceBar)
    (h : df.length < 30) :
    calculate_oversold_score df = 0 ∧ calculate_quality_filter df = .ok 0 ∧
      calculate_final_score_rev sq df = .ok 0 := by
  have hq : calculate_quality_filter df = .ok 0 := by
    rw [calculate_quality_filter, if_pos h]
  refine ⟨by rw [calculate_oversold_score, if_pos h], hq, ?_⟩
  unfold calculate_final_score_rev
  split
  · rfl
  · rw [hq]
    show Except.ok _ = _
    rw [mul_zero]

/-- C10 witness: a 20-bar flat window, with a square-root stub making the
volatility bonus equal to 1 — the final score is still 0. -/
theorem reversion_zero_below_thirty_bars_witness :
    (List.replicate 20 (flatBar 5)).length < 30 ∧
      0 < calculate_volatility_bonus (fun _ => 1) (List.replicate 20 (flatBar 5)) ∧
      calculate_final_score_rev (fun _ => 1) (List.replicate 20 (flatBar 5)) = .ok 0 := by
  refine ⟨by norm_num, ?_, (reversion_zero_below_thirty_bars (fun _ => 1) _ (by norm_num)).2.2⟩
  norm_num [calculate_volatility_bonus, List.replicate]

theorem quality_ok_of_length_ne_sixty {df : List PriceBar} (h : df.length ≠ 60) :
    calculate_quality_filter df = .ok (qualityOk df) := by
  unfold qualityOk calculate_quality_filter
  split_ifs with h1 h2 h3
  · simp [Except.toOption]
  · simp [Except.toOption]
  · omega
  · simp [Except.toOption]

/-- C4 (amended): on every non-empty window that does not have exactly 60
bars (where `calculate_quality_filter` raises `IndexError` on
`df.iloc[-61]`), the mean-reversion final score equals the 0.7/0.2/0.1
weighted blend multiplied once more by the quality filter — the quality term
is applied twice. -/
theorem reversion_final_double_quality (sq : ℚ → ℚ) (df : List PriceBar)
    (h1 : df ≠ []) (h2 : df.length ≠ 60) :
    calculate_final_score_rev sq df =
      .ok ((calculate_oversold_score df * (7 / 10) + qualityOk df * (2 / 10) +
        calculate_volatility_bonus sq df * (1 / 10)) * qualityOk df) := by
  unfold calculate_final_score_rev
  rw [if_neg (by simpa [List.isEmpty_iff] using h1), quality_ok_of_length_ne_sixty h2]
  rfl

/-- C4 witness: a single-bar window, where all components are 0 and the
double-quality formula evaluates to 0. -/
theorem reversion_final_double_quality_witness :
    ([flatBar 5] : List PriceBar) ≠ [] ∧ ([flatBar 5] : List PriceBar).length ≠ 60 ∧
      calculate_final_score_rev (fun _ => 0) [flatBar 5] =
        .ok ((calculate_oversold_score [flatBar 5] * (7 / 10) +
          qualityOk [flatBar 5] * (2 / 10) +
          calculate_volatility_bonus (fun _ => 0) [flatBar 5] * (1 / 10)) *
            qualityOk [flatBar 5]) := by
  exact ⟨by norm_num, by norm_num,
    reversion_final_double_quality (fun _ => 0) [flatBar 5] (by norm_num) (by norm_num)⟩

/-- C4 (counterexample to the claim as stated): on a window of exactly 60
bars — non-empty, so the claim asserts the double-quality equation for it —
the code raises `IndexError` instead: `calculate_quality_filter` reads
`df.iloc[-61]`, one position beyond a 60-row frame. -/
theorem reversion_final_raises_at_sixty_bars :
    (List.replicate 60 (flatBar 5) : List PriceBar) ≠ [] ∧
      calculate_final_score_rev (fun _ => 0) (List.replicate 60 (flatBar 5)) =
        .error .indexError ∧
      calculate_final_score_rev (fun _ => 0) (List.replicate 60 (flatBar 5)) ≠
        .ok ((calculate_oversold_score (List.replicate 60 (flatBar 5)) * (7 / 10) +
          qualityOk (List.replicate 60 (flatBar 5)) * (2 / 10) +
          calculate_volatility_bonus (fun _ => 0) (List.replicate 60 (flatBar 5)) * (1 / 10)) *
            qualityOk (List.replicate 60 (flatBar 5))) := by
  have he : calculate_final_score_rev (fun _ => 0) (List.replicate 60 (flatBar 5)) =
      .error .indexError := by
    norm_num [calculate_final_score_rev, calculate_quality_filter, Except.bind]
  exact ⟨by norm_num, he, by rw [he]; exact fun h => Except.noConfusion h⟩

theorem price_position_mem_unit (df : List PriceBar) :
    0 ≤ calculate_price_position_score df ∧ calculate_price_position_score df ≤ 1 := by
  unfold calculate_price_position_score
  split_ifs
  · norm_num
  · norm_num
  · exact ⟨clamp01_nonneg _, clamp01_le_one _⟩

theorem momentum_decay_mem_unit {cfg : ScorerConfig} {df : List PriceBar} {md : ℚ}
    (h : calculate_momentum_decay_score cfg df = .ok md) : 0 ≤ md ∧ md ≤ 1 := by
  unfold calculate_momentum_decay_score at h
  split_ifs at h
  · injection h with h
    subst h
    norm_num
  · injection h with h
    subst h
    exact ⟨clamp01_nonneg _, clamp01_le_one _⟩

theorem volume_confirmation_mem_unit (df : List PriceBar) :
    0 ≤ calculate_volume_confirmation_score df ∧ calculate_volume_confirmation_score df ≤ 1 := by
  unfold calculate_volume_confirmation_score
  split_ifs
  · norm_num
  · exact ⟨clamp01_nonneg _, clamp01_le_one _⟩

theorem volatility_adjusted_mem_unit {cfg : ScorerConfig} {sq ex : ℚ → ℚ}
    {df : List PriceBar} {va : ℚ}
    (h : calculate_volatility_adjusted_score cfg sq ex df = .ok va) : 0 ≤ va ∧ va ≤ 1 := by
  unfold calculate_volatility_adjusted_score at h
  split_ifs at h
  · injection h with h
    subst h
    norm_num
  · injection h with h
    subst h
    norm_num
  · injection h with h
    subst h
    exact ⟨clamp01_nonneg _, clamp01_le_one _⟩

theorem weighted_sum_unit {c1 c2 c3 c4 w1 w2 w3 w4 : ℚ}
    (h1 : 0 ≤ c1 ∧ c1 ≤ 1) (h2 : 0 ≤ c2 ∧ c2 ≤ 1) (h3 : 0 ≤ c3 ∧ c3 ≤ 1)
    (h4 : 0 ≤ c4 ∧ c4 ≤ 1) (hw1 : 0 ≤ w1) (hw2 : 0 ≤ w2) (hw3 : 0 ≤ w3) (hw4 : 0 ≤ w4)
    (hsum : w1 + w2 + w3 + w4 = 1) :
    0 ≤ c1 * w1 + c2 * w2 + c3 * w3 + c4 * w4 ∧ c1 * w1 + c2 * w2 + c3 * w3 + c4 * w4 ≤ 1 := by
  have k1 : c1 * w1 ≤ w1 := mul_le_of_le_one_left hw1 h1.2
  have k2 : c2 * w2 ≤ w2 := mul_le_of_le_one_left hw2 h2.2
  have k3 : c3 * w3 ≤ w3 := mul_le_of_le_one_left hw3 h3.2
  have k4 : c4 * w4 ≤ w4 := mul_le_of_le_one_left hw4 h4.2
  have n1 : 0 ≤ c1 * w1 := mul_nonneg h1.1 hw1
  have n2 : 0 ≤ c2 * w2 := mul_nonneg h2.1 hw2
  have n3 : 0 ≤ c3 * w3 := mul_nonneg h3.1 hw3
  have n4 : 0 ≤ c4 * w4 := mul_nonneg h4.1 hw4
  constructor <;> linarith

/-- C3 (amended): on every non-empty window on which the scorer actually
returns a result — i.e. where the momentum walk evaluates (at most 20 bars;
beyond that `reversed(recent_returns)` raises `KeyError`) and the
volatility component evaluates — each of the four component scores lies in
[0,1]; the final score is exactly the weighted sum of the components, with
no re-clamping; and it lies in [0,1] whenever the weights are NONNEGATIVE
and sum to 1. -/
theorem multifactor_components_bounded_final_weighted_sum (cfg : ScorerConfig)
    (sq ex : ℚ → ℚ) (df : List PriceBar) (md va : ℚ) (h1 : df ≠ [])
    (h2 : calculate_volatility_adjusted_score cfg sq ex df = .ok va)
    (h3 : calculate_momentum_decay_score cfg df = .ok md) :
    (0 ≤ calculate_price_position_score df ∧ calculate_price_position_score df ≤ 1) ∧
      (0 ≤ md ∧ md ≤ 1) ∧
      (0 ≤ va ∧ va ≤ 1) ∧
      (0 ≤ calculate_volume_confirmation_score df ∧
        calculate_volume_confirmation_score df ≤ 1) ∧
      calculate_final_score cfg sq ex df =
        .ok (calculate_price_position_score df * cfg.weights.price_position +
          md * cfg.weights.momentum_decay +
          va * cfg.weights.volatility_adjusted +
          calculate_volume_confirmation_score df * cfg.weights.volume_confirmation) ∧
      (0 ≤ cfg.weights.price_position → 0 ≤ cfg.weights.momentum_decay →
        0 ≤ cfg.weights.volatility_adjusted → 0 ≤ cfg.weights.volume_confirmation →
        cfg.weights.price_position + cfg.weights.momentum_decay +
            cfg.weights.volatility_adjusted + cfg.weights.volume_confirmation = 1 →
        0 ≤ calculate_price_position_score df * cfg.weights.price_position +
            md * cfg.weights.momentum_decay +
            va * cfg.weights.volatility_adjusted +
            calculate_volume_confirmation_score df * cfg.weights.volume_confirmation ∧
          calculate_price_position_score df * cfg.weights.price_position +
            md * cfg.weights.momentum_decay +
            va * cfg.weights.volatility_adjusted +
            calculate_volume_confirmation_score df * cfg.weights.volume_confirmation ≤ 1) := by
  refine ⟨price_position_mem_unit df, momentum_decay_mem_unit h3,
    volatility_adjusted_mem_unit h2, volume_confirmation_mem_unit df, ?_, ?_⟩
  · unfold calculate_final_score
    rw [if_neg (by simpa [List.isEmpty_iff] using h1), h3, h2]
    rfl
  · intro hw1 hw2 hw3 hw4 hsum
    exact weighted_sum_unit (price_position_mem_unit df) (momentum_decay_mem_unit h3)
      (volatility_adjusted_mem_unit h2) (volume_confirmation_mem_unit df) hw1 hw2 hw3 hw4 hsum

/-- A weight configuration that passes the config-loader's only check
(the weights sum to 1) but contains a negative weight. -/
def cfgNeg : ScorerConfig := ⟨⟨2, 0, 0, -1⟩, 19 / 20, 30⟩

/-- A two-bar window whose close sits at the bottom of its range, so the
price-position component is exactly 1. -/
def dfTwo : List PriceBar := [⟨10, 10, 10, 10, 1, 10⟩, ⟨1, 1, 1, 1, 1, 1⟩]

/-- C3 (counterexample to the claim as stated): with weights (2, 0, 0, -1) —
which sum to 1 — the final score on a concrete accepted window is 2, outside
[0,1]; weights summing to 1 alone do not bound the final score. -/
theorem multifactor_final_exceeds_one_with_weights_summing_to_one :
    cfgNeg.weights.price_position + cfgNeg.weights.momentum_decay +
        cfgNeg.weights.volatility_adjusted + cfgNeg.weights.volume_confirmation = 1 ∧
      calculate_final_score cfgNeg (fun _ => 0) (fun _ => 0) dfTwo = .ok 2 ∧
      ¬((2 : ℚ) ≤ 1) := by
  refine ⟨by norm_num [cfgNeg], ?_, by norm_num⟩
  norm_num [calculate_final_score, calculate_price_position_score,
    calculate_momentum_decay_score, calculate_volatility_adjusted_score,
    calculate_volume_confirmation_score, cfgNeg, dfTwo, maxOf, minOf, lastD,
    List.getLastD, clamp01, Except.bind]

/-- C3 witness: the amended theorem applied to the default configuration and
the two-bar window above (where the momentum and volatility components both
evaluate, to 0). -/
theorem multifactor_components_bounded_final_weighted_sum_witness :
    dfTwo ≠ [] ∧
      calculate_volatility_adjusted_score defaultScorerConfig (fun _ => 0) (fun _ => 0) dfTwo =
        .ok 0 ∧
      calculate_momentum_decay_score defaultScorerConfig dfTwo = .ok 0 ∧
      (0 ≤ calculate_price_position_score dfTwo ∧ calculate_price_position_score dfTwo ≤ 1) ∧
      calculate_final_score defaultScorerConfig (fun _ => 0) (fun _ => 0) dfTwo =
        .ok (calculate_price_position_score dfTwo * defaultScorerConfig.weights.price_position +
          0 * defaultScorerConfig.weights.momentum_decay +
          0 * defaultScorerConfig.weights.volatility_adjusted +
          calculate_volume_confirmation_score dfTwo *
            defaultScorerConfig.weights.volume_confirmation) := by
  have hva : calculate_volatility_adjusted_score defaultScorerConfig (fun _ => 0) (fun _ => 0)
      dfTwo = .ok 0 := by
    norm_num [calculate_volatility_adjusted_score, defaultScorerConfig, dfTwo]
  have hmd : calculate_momentum_decay_score defaultScorerConfig dfTwo = .ok 0 := by
    norm_num [calculate_momentum_decay_score, dfTwo]
  exact ⟨by simp [dfTwo], hva, hmd,
    (multifactor_components_bounded_final_weighted_sum defaultScorerConfig (fun _ => 0)
      (fun _ => 0) dfTwo 0 0 (by simp [dfTwo]) hva hmd).1,
    (multifactor_components_bounded_final_weighted_sum defaultScorerConfig (fun _ => 0)
      (fun _ => 0) dfTwo 0 0 (by simp [dfTwo]) hva hmd).2.2.2.2.1⟩

theorem decayTerm_le {w a b : ℚ} (hw : 0 < w) (habs : |a| = |b|) (ha : a ≤ 0) :
    (if b < 0 then w * |b| else -(w * b * (1 / 2))) ≤
      (if a < 0 then w * |a| else -(w * a * (1 / 2))) := by
  split_ifs with hb ha2
  · rw [habs]
  · have hz : a = 0 := le_antisymm ha (not_lt.mp ha2)
    have hbz : |b| = 0 := by rw [← habs, hz, abs_zero]
    have : b = 0 := abs_eq_zero.mp hbz
    simp [hz, this] at hb
  · have hb2 : 0 ≤ b := not_lt.mp hb
    have hab : b = |a| := by rw [habs, abs_of_nonneg hb2]
    have hnn : 0 ≤ |a| := abs_nonneg a
    nlinarith
  · have hz : a = 0 := le_antisymm ha (not_lt.mp (by assumption))
    have hbz : b = 0 := abs_eq_zero.mp (by rw [← habs, hz, abs_zero])
    rw [hz, hbz]

theorem decayTerm_lt {w a b : ℚ} (hw : 0 < w) (habs : |a| = |b|) (ha : a < 0) (hb : 0 ≤ b) :
    (if b < 0 then w * |b| else -(w * b * (1 / 2))) <
      (if a < 0 then w * |a| else -(w * a * (1 / 2))) := by
  rw [if_neg (not_lt.mpr hb), if_pos ha]
  have hab : b = |a| := by rw [habs, abs_of_nonneg hb]
  have hpos : 0 < |a| := abs_pos.mpr (ne_of_lt ha)
  nlinarith

theorem decayWalk_nonneg (d : ℚ) (hd : 0 < d) :
    ∀ (as : List ℚ) (w : ℚ), 0 ≤ w → (∀ x ∈ as, x ≤ 0) → 0 ≤ decayWalk d as w
  | [], _, _, _ => le_refl 0
  | a :: t, w, hw, hneg => by
    unfold decayWalk
    have htail := decayWalk_nonneg d hd t (w * d) (mul_nonneg hw hd.le)
      (fun x hx => hneg x (List.mem_cons_of_mem a hx))
    have hterm : 0 ≤ if a < 0 then w * |a| else -(w * a * (1 / 2)) := by
      split_ifs with hlt
      · exact mul_nonneg hw (abs_nonneg a)
      · have hz : a = 0 := le_antisymm (hneg a (List.mem_cons_self a t)) (not_lt.mp hlt)
        rw [hz]
        norm_num
    linarith

theorem decayWalk_pos (d : ℚ) (hd : 0 < d) :
    ∀ (as : List ℚ) (w : ℚ), 0 < w → (∀ x ∈ as, x ≤ 0) → (∃ x ∈ as, x < 0) →
      0 < decayWalk d as w
  | [], _, _, _, hex => by simp at hex
  | a :: t, w, hw, hneg, hex => by
    unfold decayWalk
    rcases lt_or_le a 0 with hlt | hge
    · have hterm : 0 < w * |a| := mul_pos hw (abs_pos.mpr (ne_of_lt hlt))
      have htail := decayWalk_nonneg d hd t (w * d) (mul_nonneg hw.le hd.le)
        (fun x hx => hneg x (List.mem_cons_of_mem a hx))
      rw [if_pos hlt]
      linarith
    · have hz : a = 0 := le_antisymm (hneg a (List.mem_cons_self a t)) hge
      obtain ⟨x, hx, hxlt⟩ := hex
      rcases List.mem_cons.mp hx with rfl | hxt
      · exact absurd hxlt (by rw [hz]; norm_num)
      · have htail := decayWalk_pos d hd t (w * d) (mul_pos hw hd)
          (fun y hy => hneg y (List.mem_cons_of_mem a hy)) ⟨x, hxt, hxlt⟩
        have hterm : (if a < 0 then w * |a| else -(w * a * (1 / 2))) = 0 := by
          rw [if_neg (not_lt.mpr hge), hz]
          norm_num
        linarith

theorem decayWalk_le (d : ℚ) (hd : 0 < d) :
    ∀ (as bs : List ℚ) (w : ℚ), 0 < w → as.length = bs.length →
      (∀ p ∈ as.zip bs, |p.1| = |p.2|) → (∀ x ∈ as, x ≤ 0) →
      decayWalk d bs w ≤ decayWalk d as w
  | [], [], _, _, _, _, _ => le_refl 0
  | [], _ :: _, _, _, hlen, _, _ => by simp at hlen
  | _ :: _, [], _, _, hlen, _, _ => by simp at hlen
  | a :: t, b :: s, w, hw, hlen, habs, hneg => by
    unfold decayWalk
    have hhd : |a| = |b| := habs (a, b) (by simp [List.zip_cons_cons])
    have h1 := decayTerm_le hw hhd (hneg a (List.mem_cons_self a t))
    have h2 := decayWalk_le d hd t s (w * d) (mul_pos hw hd) (by simpa using hlen)
      (fun p hp => habs p (by simp [List.zip_cons_cons, hp]))
      (fun x hx => hneg x (List.mem_cons_of_mem a hx))
    linarith

theorem decayWalk_lt (d : ℚ) (hd : 0 < d) :
    ∀ (as bs : List ℚ) (w : ℚ), 0 < w → as.length = bs.length →
      (∀ p ∈ as.zip bs, |p.1| = |p.2|) → (∀ x ∈ as, x ≤ 0) →
      (∃ p ∈ as.zip bs, p.1 < 0 ∧ 0 ≤ p.2) →
      decayWalk d bs w < decayWalk d as w
  | [], bs, _, _, _, _, _, hex => by simp at hex
  | _ :: _, [], _, _, hlen, _, _, _ => by simp at hlen
  | a :: t, b :: s, w, hw, hlen, habs, hneg, hex => by
    unfold decayWalk
    have hhd : |a| = |b| := habs (a, b) (by simp [List.zip_cons_cons])
    obtain ⟨p, hp, hp1, hp2⟩ := hex
    rcases List.mem_cons.mp (by simpa [List.zip_cons_cons] using hp) with rfl | hpt
    · have h1 := decayTerm_lt hw hhd hp1 hp2
      have h2 := decayWalk_le d hd t s (w * d) (mul_pos hw hd) (by simpa using hlen)
        (fun q hq => habs q (by simp [List.zip_cons_cons, hq]))
        (fun x hx => hneg x (List.mem_cons_of_mem a hx))
      linarith
    · have h1 := decayTerm_le hw hhd (hneg a (List.mem_cons_self a t))
      have h2 := decayWalk_lt d hd t s (w * d) (mul_pos hw hd) (by simpa using hlen)
        (fun q hq => habs q (by simp [List.zip_cons_cons, hq]))
        (fun x hx => hneg x (List.mem_cons_of_mem a hx)) ⟨p, hpt, hp1, hp2⟩
      linarith

/-- C7 (amended): compare two windows of 5 to 20 bars (where the momentum
walk actually evaluates — beyond 20 bars `reversed(recent_returns)` raises
`KeyError` and no score exists, which the `.ok` hypotheses encode) whose
trailing-20 returns (most recent first, as the code walks them) agree in
absolute value position by position; if one window's returns are all
nonpositive while the other has, at some position of nonzero magnitude, a
nonnegative return, then the all-negative window's momentum-decay score is
strictly greater — PROVIDED the mixed window's weighted decay sum stays
below the clamp ceiling (raw sum < 2, i.e. raw/2 < 1).  Without the
equal-magnitude and below-the-clamp conditions the comparison can reverse
(see the counterexample). -/
theorem momentum_all_negative_beats_mixed (cfg : ScorerConfig) (dfA dfB : List PriceBar)
    (mA mB : ℚ) (hd : 0 < cfg.momentum_decay_factor)
    (hA5 : 5 ≤ dfA.length) (hB5 : 5 ≤ dfB.length)
    (hA : calculate_momentum_decay_score cfg dfA = .ok mA)
    (hB : calculate_momentum_decay_score cfg dfB = .ok mB)
    (habs : ∀ p ∈ (trailingRets dfA).reverse.zip (trailingRets dfB).reverse, |p.1| = |p.2|)
    (hneg : ∀ x ∈ trailingRets dfA, x ≤ 0)
    (hwit : ∃ p ∈ (trailingRets dfA).reverse.zip (trailingRets dfB).reverse,
      p.1 < 0 ∧ 0 ≤ p.2)
    (hlen : (trailingRets dfA).length = (trailingRets dfB).length)
    (hclamp : decayWalk cfg.momentum_decay_factor (trailingRets dfB).reverse 1 < 2) :
    mB < mA := by
  unfold calculate_momentum_decay_score at hA hB
  rw [if_neg (not_lt.mpr hA5)] at hA
  rw [if_neg (not_lt.mpr hB5)] at hB
  split_ifs at hA with h20A
  split_ifs at hB with h20B
  injection hA with hA
  injection hB with hB
  subst hA
  subst hB
  unfold momentumCore
  have hneg2 : ∀ x ∈ (trailingRets dfA).reverse, x ≤ 0 := fun x hx =>
    hneg x (List.mem_reverse.mp hx)
  have hlen2 : (trailingRets dfA).reverse.length = (trailingRets dfB).reverse.length := by
    simpa using hlen
  have hlt := decayWalk_lt cfg.momentum_decay_factor hd (trailingRets dfA).reverse
    (trailingRets dfB).reverse 1 one_pos hlen2 habs hneg2 hwit
  have hposA : 0 < decayWalk cfg.momentum_decay_factor (trailingRets dfA).reverse 1 := by
    obtain ⟨p, hp, hp1, -⟩ := hwit
    exact decayWalk_pos cfg.momentum_decay_factor hd _ 1 one_pos hneg2
      ⟨p.1, (List.of_mem_zip hp).1, hp1⟩
  exact clamp01_strict_mono (by linarith) (by linarith) (by linarith)

/-- Five flat bars whose closes fall by exactly 25% each day: all four
genuine trailing returns are -1/4. -/
def dfAllNeg : List PriceBar :=
  [flatBar 256, flatBar 192, flatBar 144, flatBar 108, flatBar 81]

/-- The same magnitudes with the last return's sign flipped: returns
-1/4, -1/4, -1/4, +1/4. -/
def dfMixedSame : List PriceBar :=
  [flatBar 256, flatBar 192, flatBar 144, flatBar 108, flatBar 135]

/-- A mixed window with LARGE negative returns (-1/2, -1/2, -1/2) and one
small positive return (+1/100). -/
def dfMixedBig : List PriceBar :=
  [flatBar 1600, flatBar 800, flatBar 400, flatBar 200, flatBar 202]

/-- C7 (counterexample to the claim as stated): the all-negative window
`dfAllNeg` (every genuine trailing return negative) scores momentum_decay
29679/64000, strictly LESS than the mixed window `dfMixedBig` (which has a
positive return), 21599/32000 — because the claim, quantified over
arbitrary pairs of windows, lets the mixed window carry much larger
magnitudes. -/
theorem momentum_all_negative_loses_at_unequal_magnitudes :
    (∀ x ∈ pctChanges (dfAllNeg.map (·.close)), x < 0) ∧
      (∃ x ∈ pctChanges (dfMixedBig.map (·.close)), 0 < x) ∧
      calculate_momentum_decay_score defaultScorerConfig dfAllNeg = .ok (29679 / 64000) ∧
      calculate_momentum_decay_score defaultScorerConfig dfMixedBig = .ok (21599 / 32000) ∧
      ((29679 : ℚ) / 64000 < 21599 / 32000) := by
  refine ⟨by norm_num [dfAllNeg, pctChanges, flatBar], ?_, ?_, ?_, by norm_num⟩
  · refine ⟨1 / 100, ?_, by norm_num⟩
    norm_num [dfMixedBig, pctChanges, flatBar]
  · norm_num [calculate_momentum_decay_score, momentumCore, trailingRets, retsFilled,
      pctChanges, lastN, decayWalk, clamp01, dfAllNeg, flatBar,
      defaultScorerConfig, List.reverse, abs_of_nonneg]
  · norm_num [calculate_momentum_decay_score, momentumCore, trailingRets, retsFilled,
      pctChanges, lastN, decayWalk, clamp01, dfMixedBig, flatBar,
      defaultScorerConfig, List.reverse, abs_of_nonneg]

/-- C7 witness: the amended theorem applied to the -25%-per-day window
against the equal-magnitude window whose most recent return is +25%; both
are 5-bar windows, on which the momentum walk evaluates. -/
theorem momentum_all_negative_beats_mixed_witness :
    calculate_momentum_decay_score defaultScorerConfig dfAllNeg = .ok (29679 / 64000) ∧
      calculate_momentum_decay_score defaultScorerConfig dfMixedSame = .ok (17679 / 64000) ∧
      ((17679 : ℚ) / 64000 < 29679 / 64000) := by
  have hA : trailingRets dfAllNeg = [0, -(1 / 4), -(1 / 4), -(1 / 4), -(1 / 4)] := by
    norm_num [trailingRets, retsFilled, pctChanges, lastN, dfAllNeg, flatBar]
  have hB : trailingRets dfMixedSame = [0, -(1 / 4), -(1 / 4), -(1 / 4), 1 / 4] := by
    norm_num [trailingRets, retsFilled, pctChanges, lastN, dfMixedSame, flatBar]
  have hZ : (trailingRets dfAllNeg).reverse.zip (trailingRets dfMixedSame).reverse =
      [(-(1 / 4), 1 / 4), (-(1 / 4), -(1 / 4)), (-(1 / 4), -(1 / 4)),
        (-(1 / 4), -(1 / 4)), (0, 0)] := by
    rw [hA, hB]
    rfl
  have hB2 : (trailingRets dfMixedSame).reverse =
      [1 / 4, -(1 / 4), -(1 / 4), -(1 / 4), 0] := by
    rw [hB]
    rfl
  have hokA : calculate_momentum_decay_score defaultScorerConfig dfAllNeg =
      .ok (29679 / 64000) := by
    norm_num [calculate_momentum_decay_score, momentumCore, trailingRets, retsFilled,
      pctChanges, lastN, decayWalk, clamp01, dfAllNeg, flatBar,
      defaultScorerConfig, List.reverse, abs_of_nonneg]
  have hokB : calculate_momentum_decay_score defaultScorerConfig dfMixedSame =
      .ok (17679 / 64000) := by
    norm_num [calculate_momentum_decay_score, momentumCore, trailingRets, retsFilled,
      pctChanges, lastN, decayWalk, clamp01, dfMixedSame, flatBar,
      defaultScorerConfig, List.reverse, abs_of_nonneg]
  refine ⟨hokA, hokB, ?_⟩
  refine momentum_all_negative_beats_mixed defaultScorerConfig dfAllNeg dfMixedSame
    (29679 / 64000) (17679 / 64000) (by norm_num [defaultScorerConfig])
    (by norm_num [dfAllNeg]) (by norm_num [dfMixedSame]) hokA hokB ?_ ?_ ?_ ?_ ?_
  · rw [hZ]
    norm_num [List.forall_mem_cons, abs_of_nonneg, abs_of_nonpos]
  · rw [hA]
    norm_num [List.forall_mem_cons]
  · rw [hZ]
    exact ⟨(-(1 / 4), 1 / 4), List.mem_cons_self _ _, by norm_num, by norm_num⟩
  · rw [hA, hB]
    rfl
  · rw [hB2]
    norm_num [decayWalk, defaultScorerConfig, abs_of_nonneg]
